import Mathlib

/-!
# Range descriptor of a sharded key space (`src/mongo/s/chunk.cpp`)

A shallow embedding of `mongo::Chunk`: its two constructors, the membership test
`containsKey`, the write-accounting counter (`getBytesWritten`, `addBytesWritten`,
`clearBytesWritten`, `randomizeBytesWritten`), `toString` and `markAsJumbo`.

Conventions.
* `uint64_t` values are natural numbers; arithmetic on them is reduced modulo `2 ^ 64`
  where the C++ code computes (`+=`), and conversions between integer types are the
  explicit functions `toInt32` and `toUInt64`.
* A C++ member function that mutates `*this` is a function from the old `Chunk` to the
  new one (paired with its return value where it has one).
* Code that can abort the process (`invariantOK`) or whose collaborator may have no result
  returns `Option`.
* Collaborators that `chunk.cpp` only calls (comparator of keys, pseudo-random source,
  balancer configuration, catalog client, persisted record, field names) are parameters.
-/

namespace mongo

/-! ## Machine integers -/

/-- Number of values of a `uint64_t`, `2 ^ 64`. -/
def uint64Size : Nat := 18446744073709551616

/-- Conversion of an integer to `int32_t`: the value modulo `2 ^ 32` that lies in
`[-2 ^ 31, 2 ^ 31)`, with `2 ^ 31 = 2147483648` and `2 ^ 32 = 4294967296`. This is the implicit conversion applied to the argument of
`nextInt32(int32_t max)` in `mkDataWritten`. -/
def toInt32 (n : Int) : Int := (n + 2147483648) % 4294967296 - 2147483648

/-- Conversion of an integer to `uint64_t`: the value modulo `2 ^ 64 = 18446744073709551616`. This is the implicit
conversion applied when the `int64_t` result of `mkDataWritten` initialises or is assigned
to `_dataWritten`. -/
def toUInt64 (n : Int) : Nat := (n % 18446744073709551616).toNat

/-! ## Collaborators -/

/-- Modelled from the spec: `BSONObj::woCompare` (mongo/bson/bsonobj.h is not among the
sources). The spec calls it "the shard key's total ordering comparator": a three-way
comparison whose result is negative, zero or positive as the receiver is less than, equal
to, or greater than the argument in a total order on keys. -/
class WoCompare (K : Type) [LinearOrder K] where
  /-- Three-way comparison `a.woCompare(b)`. -/
  woCompare : K → K → Int
  /-- Negative exactly when the receiver is smaller. -/
  woCompare_neg_iff : ∀ a b : K, woCompare a b < 0 ↔ a < b
  /-- Zero exactly when both are equal. -/
  woCompare_zero_iff : ∀ a b : K, woCompare a b = 0 ↔ a = b

export WoCompare (woCompare)

/-- Integer keys ordered as usual, compared with results `-1`, `0`, `1`; used for the
concrete examples. -/
instance : WoCompare Int where
  woCompare a b := if a < b then -1 else if a = b then 0 else 1
  woCompare_neg_iff a b := by
    by_cases h : a < b
    · simp [h]
    · by_cases h2 : a = b <;> simp [h, h2]
  woCompare_zero_iff a b := by
    by_cases h : a < b
    · simp [h, ne_of_lt h]
    · by_cases h2 : a = b <;> simp [h, h2]

/-- Identifier of a shard (`ShardId`). -/
abbrev ShardId := String

/-- Modelled from the spec: `ChunkVersion` (mongo/s/chunk_version.h is not among the
sources), "a monotonically comparable version stamp (epoch + ordinal)". -/
structure ChunkVersion where
  /-- Ordinal part of the version. -/
  combined : Nat
  /-- Epoch of the collection. -/
  epoch : String
deriving DecidableEq, Repr

/-- The part of `ChunkManager` used here: `getns()`. -/
structure ChunkManager where
  /-- Namespace of the owning collection. -/
  getns : String
deriving DecidableEq, Repr

/-- Modelled from the spec: `Status` (mongo/base/status.h is not among the sources); code
`0` is `OK`, any other code is a failure, and `reason` describes it. -/
structure Status where
  /-- Error code, `0` for success. -/
  code : Nat
  /-- Human readable cause. -/
  reason : String
deriving DecidableEq, Repr

/-- The successful status. -/
def Status.OK : Status := ⟨0, ""⟩

/-- Test `Status::isOK()`. -/
def Status.isOK (s : Status) : Bool := s.code == 0

/-- Modelled from the spec: `StatusWith<T>` (mongo/base/status_with.h is not among the
sources): a status together with a value when the status is `OK`. -/
structure StatusWith (α : Type) where
  /-- The status part. -/
  status : Status
  /-- The value, present on success. -/
  value : Option α

/-- Test `StatusWith::isOK()`. -/
def StatusWith.isOK {α : Type} (s : StatusWith α) : Bool := s.status.isOK

/-- Accessor `StatusWith::getStatus()`. -/
def StatusWith.getStatus {α : Type} (s : StatusWith α) : Status := s.status

/-- Modelled from the spec: `PseudoRandom` (mongo/platform/random.h is not among the
sources). `raw` is the next raw output of the generator once it has been seeded with the
wall-clock time. -/
structure PseudoRandom where
  /-- Next raw output of the generator. -/
  raw : Nat
deriving DecidableEq, Repr

/-- Modelled from the spec: `PseudoRandom::nextInt32(int32_t max)` (mongo/platform/random.h
is not among the sources). The spec describes a draw of a value from `[0, max)`; the raw
output is reduced into that interval. For `max ≤ 0` the interval is empty and there is no
value to return: the model has no result. -/
def PseudoRandom.nextInt32 (r : PseudoRandom) (max : Int) : Option Int :=
  if 0 < max then some ((r.raw : Int) % max) else none

/-- The part of `BalancerConfiguration` used here: `getMaxChunkSizeBytes()`, a `uint64_t`
read afresh on every call. -/
structure BalancerConfiguration where
  /-- Configured maximum chunk size in bytes. -/
  getMaxChunkSizeBytes : Nat
deriving DecidableEq, Repr

/-- Modelled from the spec: `WriteConcernOptions` (not among the sources); only the
acknowledgement level is kept. -/
inductive WriteConcern where
  | nodes (w : Nat)
  | majority
deriving DecidableEq, Repr

/-- Modelled from the spec: `ShardingCatalogClient::kMajorityWriteConcern`
(mongo/s/catalog/sharding_catalog_client.h is not among the sources), the "majority-style
write concern". -/
def ShardingCatalogClient.kMajorityWriteConcern : WriteConcern := WriteConcern.majority

/-- Arguments of one `updateConfigDocument` call, in the order of the call: collection,
query document, update document, upsert flag, write concern. A document is the list of its
fields; the update document maps an operator to a document of boolean fields. -/
structure UpdateRequest where
  /-- Namespace of the updated config collection. -/
  ns : String
  /-- Query document selecting the target. -/
  query : List (String × String)
  /-- Update document. -/
  update : List (String × List (String × Bool))
  /-- Whether a missing document is inserted. -/
  upsert : Bool
  /-- Requested write concern. -/
  writeConcern : WriteConcern
deriving DecidableEq, Repr

/-- The part of `ShardingCatalogClient` used here: the answer of `updateConfigDocument` to
a request. -/
structure ShardingCatalogClient where
  /-- Result of the update for a given request. -/
  updateConfigDocument : UpdateRequest → StatusWith Bool

/-- Declarations of `ChunkType` and of the printing helpers that `chunk.cpp` refers to by
name and whose values live in files that are not among the sources: they are parameters of
the operations that use them. -/
structure Decls (K : Type) where
  /-- Constant `ChunkType::ConfigNS`. -/
  ConfigNS : String
  /-- Field name `ChunkType::name()`. -/
  name : String
  /-- Field name `ChunkType::shard()`. -/
  shard : String
  /-- Field name `ChunkType::DEPRECATED_lastmod()`. -/
  DEPRECATED_lastmod : String
  /-- Field name `ChunkType::min()`. -/
  min : String
  /-- Field name `ChunkType::max()`. -/
  max : String
  /-- Field name `ChunkType::jumbo()`. -/
  jumbo : String
  /-- Function `ChunkType::genID(ns, min)`. -/
  genID : String → K → String
  /-- Printing of a key with `operator<<`. -/
  showKey : K → String
  /-- Method `ChunkVersion::toString()`. -/
  versionToString : ChunkVersion → String
  /-- Helper `causedBy(status)`. -/
  causedBy : Status → String

/-- Modelled from the spec: the persisted record `ChunkType` (mongo/s/catalog/type_chunk.h
is not among the sources), given by what its accessors return to the constructor:
boundaries, owner, version, jumbo flag, and the result of `validate()`. -/
structure ChunkType (K : Type) where
  /-- Accessor `getMin()`. -/
  getMin : K
  /-- Accessor `getMax()`. -/
  getMax : K
  /-- Accessor `getShard()`. -/
  getShard : ShardId
  /-- Accessor `getVersion()`. -/
  getVersion : ChunkVersion
  /-- Accessor `getJumbo()`. -/
  getJumbo : Bool
  /-- Result of `validate()`. -/
  validate : Status

/-! ## The chunk -/

/-- Test whether we should split once data * splitTestFactor > chunkSize (approximately). -/
def splitTestFactor : Nat := 5

/-- Function `mkDataWritten()`: the configured maximum chunk size is divided by
`splitTestFactor` in `uint64_t`, the quotient is converted to the `int32_t` parameter of
`nextInt32`, and the `int32_t` result is returned as `int64_t`. -/
def mkDataWritten (cfg : BalancerConfiguration) (r : PseudoRandom) : Option Int :=
  r.nextInt32 (toInt32 ((cfg.getMaxChunkSizeBytes / splitTestFactor : Nat) : Int))

/-- Data members of `Chunk`. -/
structure Chunk (K : Type) where
  /-- Member `_manager`. -/
  manager : ChunkManager
  /-- Member `_min`. -/
  min : K
  /-- Member `_max`. -/
  max : K
  /-- Member `_shardId`. -/
  shardId : ShardId
  /-- Member `_lastmod`. -/
  lastmod : ChunkVersion
  /-- Member `_jumbo` (mutable). -/
  jumbo : Bool
  /-- Member `_dataWritten`, a `uint64_t`. -/
  dataWritten : Nat
deriving DecidableEq

namespace Chunk

variable {K : Type}

/-- Constructor `Chunk(ChunkManager*, const ChunkType&)`. The member initialisers run
first, `mkDataWritten()` among them; then the body aborts the process unless
`from.validate()` is `OK` (`invariantOK`). -/
def mkFromChunkType (cfg : BalancerConfiguration) (r : PseudoRandom)
    (manager : ChunkManager) (src : ChunkType K) : Option (Chunk K) :=
  (mkDataWritten cfg r).bind fun seed =>
    if src.validate.isOK then
      some
        { manager := manager
          min := src.getMin
          max := src.getMax
          shardId := src.getShard
          lastmod := src.getVersion
          jumbo := src.getJumbo
          dataWritten := toUInt64 seed }
    else none

/-- Constructor `Chunk(ChunkManager*, const BSONObj& min, const BSONObj& max,
const ShardId&, ChunkVersion, uint64_t initialDataWritten)`. -/
def mkExplicit (manager : ChunkManager) (min max : K) (shardId : ShardId)
    (lastmod : ChunkVersion) (initialDataWritten : Nat) : Chunk K :=
  { manager := manager
    min := min
    max := max
    shardId := shardId
    lastmod := lastmod
    jumbo := false
    dataWritten := initialDataWritten }

/-- Member function `containsKey`:
`getMin().woCompare(shardKey) <= 0 && shardKey.woCompare(getMax()) < 0`. -/
def containsKey [LinearOrder K] [WoCompare K] (c : Chunk K) (shardKey : K) : Bool :=
  decide (woCompare c.min shardKey ≤ 0) && decide (woCompare shardKey c.max < 0)

/-- Member function `getBytesWritten`. -/
def getBytesWritten (c : Chunk K) : Nat := c.dataWritten

/-- Member function `addBytesWritten`: `_dataWritten += bytesWrittenIncrement` in
`uint64_t`, then the new value is returned. The result is the new chunk and the returned
value. -/
def addBytesWritten (c : Chunk K) (bytesWrittenIncrement : Nat) : Chunk K × Nat :=
  let c1 := { c with dataWritten := (c.dataWritten + bytesWrittenIncrement) % uint64Size }
  (c1, c1.dataWritten)

/-- Member function `clearBytesWritten`. -/
def clearBytesWritten (c : Chunk K) : Chunk K := { c with dataWritten := 0 }

/-- Member function `randomizeBytesWritten`: `_dataWritten = mkDataWritten()`. -/
def randomizeBytesWritten (cfg : BalancerConfiguration) (r : PseudoRandom) (c : Chunk K) :
    Option (Chunk K) :=
  (mkDataWritten cfg r).map fun seed => { c with dataWritten := toUInt64 seed }

/-- Member function `toString`. -/
def toString (d : Decls K) (c : Chunk K) : String :=
  d.shard ++ ": " ++ c.shardId ++ ", " ++ d.DEPRECATED_lastmod ++ ": "
    ++ d.versionToString c.lastmod ++ ", " ++ d.min ++ ": " ++ d.showKey c.min ++ ", "
    ++ d.max ++ ": " ++ d.showKey c.max

end Chunk

/-! ## Effects of `markAsJumbo` -/

/-- Observable actions of `markAsJumbo`, in program order. -/
inductive Effect where
  /-- Informational message sent with `log()`. -/
  | log (msg : String)
  /-- In-memory write `_jumbo = value`. -/
  | setJumbo (value : Bool)
  /-- Call of `updateConfigDocument` with these arguments. -/
  | updateConfigDocument (req : UpdateRequest)
  /-- Message sent with `warning()`. -/
  | warning (msg : String)
deriving DecidableEq, Repr

/-- An action together with the value of `_jumbo` at the moment it happens. -/
structure Event where
  /-- The action. -/
  effect : Effect
  /-- Value of `_jumbo` seen by an observer at that moment. -/
  jumboSeen : Bool
deriving DecidableEq, Repr

namespace Chunk

variable {K : Type}

/-- Record an action in the trace, with the current value of `_jumbo`. -/
def emit (s : Chunk K × List Event) (e : Effect) : Chunk K × List Event :=
  (s.1, s.2 ++ [{ effect := e, jumboSeen := s.1.jumbo }])

/-- The request built by `markAsJumbo` for the chunk named `chunkName`:
`updateConfigDocument(txn, ChunkType::ConfigNS, BSON(ChunkType::name(chunkName)),
BSON("$set" << BSON(ChunkType::jumbo(true))), false, kMajorityWriteConcern)`. -/
def jumboRequest (d : Decls K) (chunkName : String) : UpdateRequest :=
  { ns := d.ConfigNS
    query := [(d.name, chunkName)]
    update := [("$set", [(d.jumbo, true)])]
    upsert := false
    writeConcern := ShardingCatalogClient.kMajorityWriteConcern }

/-- Member function `markAsJumbo`, statement by statement: the message is logged, `_jumbo`
is set, the chunk name is computed, the catalog update is issued, and a warning is logged
when its status is not `OK`. The result is the new chunk and the trace of actions. There is
no path that throws or returns an error. -/
def markAsJumbo (d : Decls K) (catalog : ShardingCatalogClient) (c : Chunk K) :
    Chunk K × List Event :=
  let s0 : Chunk K × List Event := (c, [])
  let s1 := emit s0 (Effect.log ("Marking chunk " ++ c.toString d ++ " as jumbo."))
  let s2 := emit ({ s1.1 with jumbo := true }, s1.2) (Effect.setJumbo true)
  let chunkName := d.genID s2.1.manager.getns s2.1.min
  let req := jumboRequest d chunkName
  let s3 := emit s2 (Effect.updateConfigDocument req)
  let status := catalog.updateConfigDocument req
  if !status.isOK then
    emit s3 (Effect.warning
      ("couldn't set jumbo for chunk: " ++ chunkName ++ d.causedBy status.getStatus))
  else s3

end Chunk

/-! ## Sequences of calls -/

/-- One call of a member function of `Chunk`, with its arguments and with the collaborators
it consults during the call. -/
inductive Call (K : Type) where
  | containsKey (shardKey : K)
  | getBytesWritten
  | addBytesWritten (bytesWrittenIncrement : Nat)
  | clearBytesWritten
  | randomizeBytesWritten (cfg : BalancerConfiguration) (r : PseudoRandom)
  | toString
  | markAsJumbo (catalog : ShardingCatalogClient)

/-- Value returned by a call. -/
inductive Ret where
  | void
  | bool (b : Bool)
  | uint64 (n : Nat)
  | string (s : String)
deriving DecidableEq, Repr

/-- Outcome of a call that completes: the chunk afterwards, the returned value and the
actions observed. -/
structure Outcome (K : Type) where
  /-- The chunk after the call. -/
  chunk : Chunk K
  /-- The returned value. -/
  ret : Ret
  /-- The actions of the call. -/
  trace : List Event

namespace Chunk

variable {K : Type}

/-- Execute one call on a chunk; `none` when the call does not complete. -/
def call [LinearOrder K] [WoCompare K] (d : Decls K) (c : Chunk K) :
    Call K → Option (Outcome K)
  | Call.containsKey k => some ⟨c, Ret.bool (c.containsKey k), []⟩
  | Call.getBytesWritten => some ⟨c, Ret.uint64 c.getBytesWritten, []⟩
  | Call.addBytesWritten n => some ⟨(c.addBytesWritten n).1, Ret.uint64 (c.addBytesWritten n).2, []⟩
  | Call.clearBytesWritten => some ⟨c.clearBytesWritten, Ret.void, []⟩
  | Call.randomizeBytesWritten cfg r =>
    (c.randomizeBytesWritten cfg r).map fun c1 => ⟨c1, Ret.void, []⟩
  | Call.toString => some ⟨c, Ret.string (c.toString d), []⟩
  | Call.markAsJumbo catalog =>
    some ⟨(c.markAsJumbo d catalog).1, Ret.void, (c.markAsJumbo d catalog).2⟩

/-- Execute a sequence of calls from left to right; `none` when one of them does not
complete. -/
def run [LinearOrder K] [WoCompare K] (d : Decls K) : Chunk K → List (Call K) → Option (Chunk K)
  | c, [] => some c
  | c, op :: ops =>
    match c.call d op with
    | none => none
    | some o => run d o.chunk ops

/-- Apply `addBytesWritten` with each increment in turn. -/
def addAll (c : Chunk K) : List Nat → Chunk K
  | [] => c
  | n :: ns => addAll (c.addBytesWritten n).1 ns

end Chunk

/-- Whether a call completes: every call does, except a re-seeding whose bounded draw has
no result. -/
def Call.completes {K : Type} : Call K → Bool
  | Call.randomizeBytesWritten cfg r => (mkDataWritten cfg r).isSome
  | _ => true

/-! ## Reading a trace -/

/-- The requests of the catalog updates issued in a trace, in order. -/
def updatesOf (trace : List Event) : List UpdateRequest :=
  trace.filterMap fun e =>
    match e.effect with
    | Effect.updateConfigDocument req => some req
    | _ => none

/-- The informational messages of a trace, in order. -/
def logsOf (trace : List Event) : List String :=
  trace.filterMap fun e =>
    match e.effect with
    | Effect.log msg => some msg
    | _ => none

/-- The warning messages of a trace, in order. -/
def warningsOf (trace : List Event) : List String :=
  trace.filterMap fun e =>
    match e.effect with
    | Effect.warning msg => some msg
    | _ => none

/-- Whether an action is a catalog update. -/
def Effect.isUpdate : Effect → Bool
  | Effect.updateConfigDocument _ => true
  | _ => false

/-- The actions of a sequence of calls, concatenated in order; `none` when one of the calls
does not complete. -/
def Chunk.runTrace {K : Type} [LinearOrder K] [WoCompare K] (d : Decls K) :
    Chunk K → List (Call K) → Option (List Event)
  | _, [] => some []
  | c, op :: ops =>
    match c.call d op with
    | none => none
    | some o => (Chunk.runTrace d o.chunk ops).map fun t => o.trace ++ t

/-! ## Concrete data for examples -/

/-- Field names and helpers used in the examples. -/
def exampleDecls : Decls Int :=
  { ConfigNS := "config.chunks"
    name := "_id"
    shard := "shard"
    DEPRECATED_lastmod := "lastmod"
    min := "min"
    max := "max"
    jumbo := "jumbo"
    genID := fun ns k => ns ++ "-" ++ toString k
    showKey := fun k => toString k
    versionToString := fun v => toString v.combined ++ "|" ++ v.epoch
    causedBy := fun s => " :: caused by :: " ++ s.reason }

/-- A chunk manager for the collection `test.coll`. -/
def exampleManager : ChunkManager := ⟨"test.coll"⟩

/-- A version stamp. -/
def exampleVersion : ChunkVersion := ⟨1, "e"⟩

/-- The chunk `[10, 20)` on `shard0` with counter `initialDataWritten`. -/
def exampleChunk (initialDataWritten : Nat) : Chunk Int :=
  Chunk.mkExplicit exampleManager 10 20 "shard0" exampleVersion initialDataWritten

/-- A catalog whose update fails with a network error. -/
def failingCatalog : ShardingCatalogClient :=
  ⟨fun _ => ⟨⟨89, "network error"⟩, none⟩⟩

/-- A catalog whose update succeeds. -/
def okCatalog : ShardingCatalogClient :=
  ⟨fun _ => ⟨Status.OK, some true⟩⟩

/-- A persisted record for `[10, 20)` with the given jumbo flag and validation result. -/
def exampleRecord (jumbo : Bool) (validate : Status) : ChunkType Int :=
  { getMin := 10
    getMax := 20
    getShard := "shard0"
    getVersion := exampleVersion
    getJumbo := jumbo
    validate := validate }

/-- A jumbo chunk after a failed catalog update. -/
def jumboChunk : Chunk Int := ((exampleChunk 7).markAsJumbo exampleDecls failingCatalog).1

/-- One call of each member function. -/
def exampleCalls : List (Call Int) :=
  [Call.containsKey 12, Call.getBytesWritten, Call.addBytesWritten 1500,
    Call.clearBytesWritten, Call.randomizeBytesWritten ⟨100000000⟩ ⟨123456789123⟩,
    Call.toString, Call.markAsJumbo okCatalog, Call.addBytesWritten 3]

/-! ## Auxiliary facts -/

section Lemmas

variable {K : Type}

/-- The comparator is non-positive exactly when the receiver is at most the argument. -/
theorem woCompare_nonpos_iff [LinearOrder K] [WoCompare K] (a b : K) :
    woCompare a b ≤ 0 ↔ a ≤ b := by
  rw [le_iff_lt_or_eq, le_iff_lt_or_eq, WoCompare.woCompare_neg_iff,
    WoCompare.woCompare_zero_iff]

/-- The chunk left by `markAsJumbo` is the old chunk with `_jumbo` set. -/
theorem Chunk.markAsJumbo_fst (d : Decls K) (catalog : ShardingCatalogClient) (c : Chunk K) :
    (c.markAsJumbo d catalog).1 = { c with jumbo := true } := by
  simp only [Chunk.markAsJumbo, Chunk.emit]
  split <;> rfl

/-- A call that completes on a jumbo chunk leaves a jumbo chunk. -/
theorem Chunk.call_keeps_jumbo [LinearOrder K] [WoCompare K] (d : Decls K) (c : Chunk K)
    (op : Call K) (o : Outcome K) (hc : c.call d op = some o) (hj : c.jumbo = true) :
    o.chunk.jumbo = true := by
  cases op with
  | containsKey k => simp only [Chunk.call, Option.some.injEq] at hc; subst hc; exact hj
  | getBytesWritten => simp only [Chunk.call, Option.some.injEq] at hc; subst hc; exact hj
  | addBytesWritten n => simp only [Chunk.call, Option.some.injEq] at hc; subst hc; exact hj
  | clearBytesWritten => simp only [Chunk.call, Option.some.injEq] at hc; subst hc; exact hj
  | randomizeBytesWritten cfg r =>
    simp only [Chunk.call, Chunk.randomizeBytesWritten] at hc
    cases hm : mkDataWritten cfg r with
    | none => simp [hm] at hc
    | some seed =>
      simp only [hm, Option.map_some', Option.some.injEq] at hc
      subst hc
      exact hj
  | toString => simp only [Chunk.call, Option.some.injEq] at hc; subst hc; exact hj
  | markAsJumbo catalog =>
    simp only [Chunk.call, Option.some.injEq] at hc
    subst hc
    simp only [Chunk.markAsJumbo_fst]

/-- Narrowing a non-negative integer to `int32_t` never makes a positive result larger
than the original. -/
theorem toInt32_le (q : Int) (hq : 0 ≤ q) : toInt32 q ≤ q := by
  unfold toInt32
  omega

/-- The result of narrowing to `int32_t` is below `2 ^ 31`. -/
theorem toInt32_lt (q : Int) : toInt32 q < 2147483648 := by
  unfold toInt32
  omega

/-- A quotient between `0` and `2 ^ 31 - 1` is unchanged by narrowing to `int32_t`. -/
theorem toInt32_of_lt (q : Int) (h0 : 0 ≤ q) (h1 : q < 2147483648) : toInt32 q = q := by
  unfold toInt32
  omega

/-- A non-negative value below `2 ^ 64` is unchanged by conversion to `uint64_t`. -/
theorem toUInt64_of_lt (v : Int) (h0 : 0 ≤ v) (h1 : v < 18446744073709551616) :
    toUInt64 v = v.toNat := by
  unfold toUInt64
  rw [Int.emod_eq_of_lt h0 h1]

/-- When the narrowed bound is positive, `mkDataWritten` returns a value that is
non-negative and below both the narrowed bound and the quotient. -/
theorem mkDataWritten_some (cfg : BalancerConfiguration) (r : PseudoRandom)
    (h : 0 < toInt32 ((cfg.getMaxChunkSizeBytes / splitTestFactor : Nat) : Int)) :
    ∃ seed : Int, mkDataWritten cfg r = some seed ∧ 0 ≤ seed ∧
      seed < ((cfg.getMaxChunkSizeBytes / splitTestFactor : Nat) : Int) ∧
      toUInt64 seed < cfg.getMaxChunkSizeBytes / splitTestFactor := by
  have hq0 : (0 : Int) ≤ ((cfg.getMaxChunkSizeBytes / splitTestFactor : Nat) : Int) :=
    Int.ofNat_nonneg _
  have hle := toInt32_le _ hq0
  have hlt := toInt32_lt ((cfg.getMaxChunkSizeBytes / splitTestFactor : Nat) : Int)
  have h0 := Int.emod_nonneg (r.raw : Int) (ne_of_gt h)
  have h1 := Int.emod_lt_of_pos (r.raw : Int) h
  refine ⟨(r.raw : Int) % toInt32 ((cfg.getMaxChunkSizeBytes / splitTestFactor : Nat) : Int),
    ?_, h0, lt_of_lt_of_le h1 hle, ?_⟩
  · simp only [mkDataWritten, PseudoRandom.nextInt32, if_pos h]
  · rw [toUInt64_of_lt _ h0 (by omega)]
    omega

/-- A maximum chunk size from `5` up to (excluded) `5 * 2 ^ 31` gives a positive narrowed
bound. -/
theorem narrowed_bound_pos (m : Nat) (h0 : 5 ≤ m) (h1 : m < 10737418240) :
    0 < toInt32 ((m / splitTestFactor : Nat) : Int) := by
  have hq0 : 1 ≤ m / splitTestFactor := by unfold splitTestFactor; omega
  have hq1 : m / splitTestFactor < 2147483648 := by unfold splitTestFactor; omega
  rw [toInt32_of_lt _ (Int.ofNat_nonneg _) (by omega)]
  omega

/-- The counter after a sequence of increments, as a residue modulo `2 ^ 64`. -/
theorem Chunk.addAll_dataWritten (c : Chunk K) (ns : List Nat) :
    (c.addAll ns).dataWritten % uint64Size = (c.dataWritten + ns.sum) % uint64Size := by
  induction ns generalizing c with
  | nil => simp [Chunk.addAll]
  | cons n ns ih =>
    simp only [Chunk.addAll, List.sum_cons]
    rw [ih]
    simp only [Chunk.addBytesWritten]
    rw [Nat.add_mod, Nat.mod_mod, ← Nat.add_mod, Nat.add_assoc]

/-- Increments keep the counter inside `uint64_t`. -/
theorem Chunk.addAll_lt (c : Chunk K) (ns : List Nat) (h : c.dataWritten < uint64Size) :
    (c.addAll ns).dataWritten < uint64Size := by
  induction ns generalizing c with
  | nil => simpa [Chunk.addAll] using h
  | cons n ns ih =>
    simp only [Chunk.addAll]
    apply ih
    simp only [Chunk.addBytesWritten]
    exact Nat.mod_lt _ (by unfold uint64Size; omega)

/-- The trace of `markAsJumbo`: the message, the write of `_jumbo`, the catalog update, and
a warning when the answer of the catalog is not `OK`. -/
theorem Chunk.markAsJumbo_snd (d : Decls K) (catalog : ShardingCatalogClient) (c : Chunk K) :
    (c.markAsJumbo d catalog).2 =
      [⟨Effect.log ("Marking chunk " ++ c.toString d ++ " as jumbo."), c.jumbo⟩,
        ⟨Effect.setJumbo true, true⟩,
        ⟨Effect.updateConfigDocument
          (Chunk.jumboRequest d (d.genID c.manager.getns c.min)), true⟩] ++
      (if (catalog.updateConfigDocument
            (Chunk.jumboRequest d (d.genID c.manager.getns c.min))).isOK = true then []
        else [⟨Effect.warning ("couldn't set jumbo for chunk: "
          ++ d.genID c.manager.getns c.min
          ++ d.causedBy (catalog.updateConfigDocument
            (Chunk.jumboRequest d (d.genID c.manager.getns c.min))).getStatus), true⟩]) := by
  simp only [Chunk.markAsJumbo, Chunk.emit]
  cases h : (catalog.updateConfigDocument
      (Chunk.jumboRequest d (d.genID c.manager.getns c.min))).isOK <;> simp

/-- A call that completes changes neither the manager, nor the boundaries, nor the owner,
nor the version. -/
theorem Chunk.call_frame [LinearOrder K] [WoCompare K] (d : Decls K) (c : Chunk K)
    (op : Call K) (o : Outcome K) (hc : c.call d op = some o) :
    o.chunk.manager = c.manager ∧ o.chunk.min = c.min ∧ o.chunk.max = c.max ∧
      o.chunk.shardId = c.shardId ∧ o.chunk.lastmod = c.lastmod := by
  cases op with
  | containsKey k =>
    simp only [Chunk.call, Option.some.injEq] at hc; subst hc; exact ⟨rfl, rfl, rfl, rfl, rfl⟩
  | getBytesWritten =>
    simp only [Chunk.call, Option.some.injEq] at hc; subst hc; exact ⟨rfl, rfl, rfl, rfl, rfl⟩
  | addBytesWritten n =>
    simp only [Chunk.call, Option.some.injEq] at hc; subst hc; exact ⟨rfl, rfl, rfl, rfl, rfl⟩
  | clearBytesWritten =>
    simp only [Chunk.call, Option.some.injEq] at hc; subst hc; exact ⟨rfl, rfl, rfl, rfl, rfl⟩
  | randomizeBytesWritten cfg r =>
    simp only [Chunk.call, Chunk.randomizeBytesWritten] at hc
    cases hm : mkDataWritten cfg r with
    | none => simp [hm] at hc
    | some seed =>
      simp only [hm, Option.map_some', Option.some.injEq] at hc
      subst hc
      exact ⟨rfl, rfl, rfl, rfl, rfl⟩
  | toString =>
    simp only [Chunk.call, Option.some.injEq] at hc; subst hc; exact ⟨rfl, rfl, rfl, rfl, rfl⟩
  | markAsJumbo catalog =>
    simp only [Chunk.call, Option.some.injEq] at hc
    subst hc
    simp only [Chunk.markAsJumbo_fst, and_self]

/-- A sequence of calls that completes changes neither the manager, nor the boundaries, nor
the owner, nor the version. -/
theorem Chunk.run_frame [LinearOrder K] [WoCompare K] (d : Decls K) (c : Chunk K)
    (ops : List (Call K)) (c1 : Chunk K) (h : c.run d ops = some c1) :
    c1.manager = c.manager ∧ c1.min = c.min ∧ c1.max = c.max ∧
      c1.shardId = c.shardId ∧ c1.lastmod = c.lastmod := by
  induction ops generalizing c with
  | nil =>
    simp only [Chunk.run, Option.some.injEq] at h
    subst h
    exact ⟨rfl, rfl, rfl, rfl, rfl⟩
  | cons op ops ih =>
    simp only [Chunk.run] at h
    cases hc : c.call d op with
    | none => simp [hc] at h
    | some o =>
      simp only [hc] at h
      obtain ⟨h1, h2, h3, h4, h5⟩ := ih o.chunk h
      obtain ⟨g1, g2, g3, g4, g5⟩ := Chunk.call_frame d c op o hc
      exact ⟨h1.trans g1, h2.trans g2, h3.trans g3, h4.trans g4, h5.trans g5⟩

/-- A call whose draw, if any, has a result does complete. -/
theorem Chunk.call_of_completes [LinearOrder K] [WoCompare K] (d : Decls K) (c : Chunk K)
    (op : Call K) (h : op.completes = true) : ∃ o : Outcome K, c.call d op = some o := by
  cases op with
  | randomizeBytesWritten cfg r =>
    simp only [Call.completes, Option.isSome_iff_exists] at h
    obtain ⟨seed, hs⟩ := h
    simp only [Chunk.call, Chunk.randomizeBytesWritten, hs, Option.map_some']
    exact ⟨_, rfl⟩
  | containsKey k => exact ⟨_, rfl⟩
  | getBytesWritten => exact ⟨_, rfl⟩
  | addBytesWritten n => exact ⟨_, rfl⟩
  | clearBytesWritten => exact ⟨_, rfl⟩
  | toString => exact ⟨_, rfl⟩
  | markAsJumbo catalog => exact ⟨_, rfl⟩

/-- Membership depends on the boundaries only. -/
theorem Chunk.containsKey_congr [LinearOrder K] [WoCompare K] (c c1 : Chunk K) (k : K)
    (hmin : c1.min = c.min) (hmax : c1.max = c.max) : c1.containsKey k = c.containsKey k := by
  simp only [Chunk.containsKey, hmin, hmax]

/-- A sequence of calls that all complete does complete. -/
theorem Chunk.run_of_completes [LinearOrder K] [WoCompare K] (d : Decls K) (c : Chunk K)
    (ops : List (Call K)) (h : ∀ op ∈ ops, op.completes = true) :
    ∃ c1 : Chunk K, c.run d ops = some c1 := by
  induction ops generalizing c with
  | nil => exact ⟨c, rfl⟩
  | cons op ops ih =>
    obtain ⟨o, hc⟩ := Chunk.call_of_completes d c op (h op (List.mem_cons_self _ _))
    obtain ⟨c1, h1⟩ := ih o.chunk (fun op1 h1 => h op1 (List.mem_cons_of_mem _ h1))
    exact ⟨c1, by simp only [Chunk.run, hc, h1]⟩

/-- One `markAsJumbo` call issues exactly one catalog update, with the request built from
the namespace of the collection and `min`. -/
theorem Chunk.updatesOf_markAsJumbo (d : Decls K) (catalog : ShardingCatalogClient)
    (c : Chunk K) :
    updatesOf (c.markAsJumbo d catalog).2 =
      [Chunk.jumboRequest d (d.genID c.manager.getns c.min)] := by
  rw [Chunk.markAsJumbo_snd]
  split <;> simp [updatesOf]

/-- One `markAsJumbo` call logs exactly one informational message. -/
theorem Chunk.logsOf_markAsJumbo (d : Decls K) (catalog : ShardingCatalogClient)
    (c : Chunk K) :
    logsOf (c.markAsJumbo d catalog).2 =
      ["Marking chunk " ++ c.toString d ++ " as jumbo."] := by
  rw [Chunk.markAsJumbo_snd]
  split <;> simp [logsOf]

/-- One `markAsJumbo` call logs a warning exactly when the answer of the catalog is not
`OK`. -/
theorem Chunk.warningsOf_markAsJumbo (d : Decls K) (catalog : ShardingCatalogClient)
    (c : Chunk K) :
    warningsOf (c.markAsJumbo d catalog).2 =
      if (catalog.updateConfigDocument
          (Chunk.jumboRequest d (d.genID c.manager.getns c.min))).isOK = true then []
      else ["couldn't set jumbo for chunk: " ++ d.genID c.manager.getns c.min
        ++ d.causedBy (catalog.updateConfigDocument
          (Chunk.jumboRequest d (d.genID c.manager.getns c.min))).getStatus] := by
  rw [Chunk.markAsJumbo_snd]
  split <;> simp [warningsOf]

/-- Membership as a statement about the order of keys. -/
theorem Chunk.containsKey_eq_true_iff [LinearOrder K] [WoCompare K] (c : Chunk K) (k : K) :
    c.containsKey k = true ↔ c.min ≤ k ∧ k < c.max := by
  simp only [Chunk.containsKey, Bool.and_eq_true, decide_eq_true_eq,
    woCompare_nonpos_iff, WoCompare.woCompare_neg_iff]

end Lemmas

/-! ## Membership -/

/-- C1: for every chunk and every key `k`, `containsKey k` is true if and only if
`min ≤ k` and `k < max` in the total order of the comparator; a key equal to `min` is
contained and a key equal to `max` is not. -/
theorem containsKey_iff {K : Type} [LinearOrder K] [WoCompare K] (c : Chunk K) (k : K) :
    (c.containsKey k = true ↔ c.min ≤ k ∧ k < c.max) ∧
      (c.containsKey c.min = true ↔ c.min < c.max) ∧ c.containsKey c.max = false := by
  have key : ∀ x : K, c.containsKey x = true ↔ c.min ≤ x ∧ x < c.max := by
    intro x
    simp only [Chunk.containsKey, Bool.and_eq_true, decide_eq_true_eq,
      woCompare_nonpos_iff, WoCompare.woCompare_neg_iff]
  refine ⟨key k, ?_, ?_⟩
  · rw [key]
    exact ⟨fun h => h.2, fun h => ⟨le_refl _, h⟩⟩
  · rw [Bool.eq_false_iff]
    intro h
    exact lt_irrefl _ ((key c.max).mp h).2

/-- The chunk `[10, 20)` contains `10` and `19`, and contains neither `20` nor `9`. -/
theorem containsKey_iff_witness :
    (exampleChunk 0).containsKey 10 = true ∧ (exampleChunk 0).containsKey 19 = true ∧
      (exampleChunk 0).containsKey 20 = false ∧ (exampleChunk 0).containsKey 9 = false := by
  refine ⟨((containsKey_iff (exampleChunk 0) 10).1).mpr ⟨by decide, by decide⟩,
    ((containsKey_iff (exampleChunk 0) 19).1).mpr ⟨by decide, by decide⟩, ?_, ?_⟩
  · rw [Bool.eq_false_iff]
    intro h
    exact absurd (((containsKey_iff (exampleChunk 0) 20).1).mp h).2 (by decide)
  · rw [Bool.eq_false_iff]
    intro h
    exact absurd (((containsKey_iff (exampleChunk 0) 9).1).mp h).1 (by decide)

/-! ## The jumbo flag -/

/-- C2: for every chunk and every answer of the catalog (success or any failure status),
`markAsJumbo` completes, returns nothing, and leaves the jumbo flag true. -/
theorem markAsJumbo_sets_jumbo {K : Type} [LinearOrder K] [WoCompare K] (d : Decls K)
    (catalog : ShardingCatalogClient) (c : Chunk K) :
    (c.markAsJumbo d catalog).1.jumbo = true ∧
      ∃ o : Outcome K, c.call d (Call.markAsJumbo catalog) = some o ∧ o.ret = Ret.void ∧
        o.chunk.jumbo = true := by
  have h : (c.markAsJumbo d catalog).1.jumbo = true := by
    simp only [Chunk.markAsJumbo_fst]
  exact ⟨h, ⟨_, rfl, rfl, h⟩⟩

/-- C3: the jumbo flag is a one-way latch. From a chunk whose jumbo flag is true, after
every finite sequence of calls (containsKey, getBytesWritten, addBytesWritten,
clearBytesWritten, randomizeBytesWritten, toString, markAsJumbo) that completes the flag is
still true; and a sequence in which every call completes does complete. -/
theorem jumbo_latch {K : Type} [LinearOrder K] [WoCompare K] (d : Decls K) (c : Chunk K)
    (ops : List (Call K)) (hj : c.jumbo = true) :
    (∀ c1 : Chunk K, c.run d ops = some c1 → c1.jumbo = true) ∧
      ((∀ op ∈ ops, op.completes = true) →
        ∃ c1 : Chunk K, c.run d ops = some c1 ∧ c1.jumbo = true) := by
  induction ops generalizing c with
  | nil =>
    refine ⟨fun c1 h => ?_, fun _ => ⟨c, rfl, hj⟩⟩
    simp only [Chunk.run, Option.some.injEq] at h
    subst h
    exact hj
  | cons op ops ih =>
    constructor
    · intro c1 h
      simp only [Chunk.run] at h
      cases hc : c.call d op with
      | none => simp [hc] at h
      | some o =>
        simp only [hc] at h
        exact (ih o.chunk (Chunk.call_keeps_jumbo d c op o hc hj)).1 c1 h
    · intro hall
      have hop : op.completes = true := hall op (List.mem_cons_self _ _)
      have hrest : ∀ op1 ∈ ops, op1.completes = true :=
        fun op1 h1 => hall op1 (List.mem_cons_of_mem _ h1)
      have hex : ∃ o, c.call d op = some o := by
        cases op with
        | randomizeBytesWritten cfg r =>
          simp only [Call.completes, Option.isSome_iff_exists] at hop
          obtain ⟨seed, hs⟩ := hop
          simp only [Chunk.call, Chunk.randomizeBytesWritten, hs, Option.map_some']
          exact ⟨_, rfl⟩
        | containsKey k => exact ⟨_, rfl⟩
        | getBytesWritten => exact ⟨_, rfl⟩
        | addBytesWritten n => exact ⟨_, rfl⟩
        | clearBytesWritten => exact ⟨_, rfl⟩
        | toString => exact ⟨_, rfl⟩
        | markAsJumbo catalog => exact ⟨_, rfl⟩
      obtain ⟨o, hc⟩ := hex
      obtain ⟨c1, h1, h2⟩ := (ih o.chunk (Chunk.call_keeps_jumbo d c op o hc hj)).2 hrest
      exact ⟨c1, by simp only [Chunk.run, hc, h1], h2⟩

/-- A jumbo chunk stays jumbo through one call of each member function. -/
theorem jumbo_latch_witness :
    jumboChunk.jumbo = true ∧
      ∃ c1 : Chunk Int, jumboChunk.run exampleDecls exampleCalls = some c1 ∧
        c1.jumbo = true :=
  ⟨by decide, (jumbo_latch exampleDecls jumboChunk exampleCalls (by decide)).2 (by decide)⟩

/-! ## Write accounting -/

/-- C4, as stated, fails: a counter at `2 ^ 64 - 1` incremented by `1` reads `0`, not
`2 ^ 64`. -/
theorem addBytesWritten_sum_counterexample :
    ((exampleChunk 18446744073709551615).addAll [1]).getBytesWritten = 0 ∧
      ((exampleChunk 18446744073709551615).addAll [1]).getBytesWritten ≠
        (exampleChunk 18446744073709551615).getBytesWritten + [1].sum := by
  decide

/-- C4, amended: for every initial `uint64_t` counter value `c` and every finite sequence
of increments applied by successive `addBytesWritten` calls, the counter read by
`getBytesWritten` afterwards equals `c` plus the sum of the increments modulo `2 ^ 64`;
it equals `c` plus the sum whenever that does not exceed the range of `uint64_t`. -/
theorem addBytesWritten_sum {K : Type} (c : Chunk K) (ns : List Nat)
    (h : c.getBytesWritten < uint64Size) :
    (c.addAll ns).getBytesWritten = (c.getBytesWritten + ns.sum) % uint64Size ∧
      (c.getBytesWritten + ns.sum < uint64Size →
        (c.addAll ns).getBytesWritten = c.getBytesWritten + ns.sum) := by
  have h1 := Chunk.addAll_dataWritten c ns
  have h2 := Chunk.addAll_lt c ns h
  rw [Nat.mod_eq_of_lt h2] at h1
  refine ⟨h1, fun h3 => ?_⟩
  simp only [Chunk.getBytesWritten] at h3 ⊢
  rw [h1, Nat.mod_eq_of_lt h3]

/-- Three increments of a counter seeded with `5000`. -/
theorem addBytesWritten_sum_witness :
    (exampleChunk 5000).getBytesWritten < uint64Size ∧
      ((exampleChunk 5000).addAll [1500, 200, 4]).getBytesWritten = 6704 :=
  ⟨by decide, (addBytesWritten_sum (exampleChunk 5000) [1500, 200, 4] (by decide)).2
    (by decide)⟩

/-- C5, as stated, fails: with the counter at `18446744073709550000`, `addBytesWritten 5000`
returns `3384`, not the counter before the call plus `5000`. -/
theorem addBytesWritten_returns_counterexample :
    ((exampleChunk 18446744073709550000).addBytesWritten 5000).2 = 3384 ∧
      ((exampleChunk 18446744073709550000).addBytesWritten 5000).2 ≠
        (exampleChunk 18446744073709550000).getBytesWritten + 5000 := by
  decide

/-- C5, amended: for every chunk and every increment `n`, `addBytesWritten n` returns the
counter before the call plus `n` modulo `2 ^ 64` (the sum itself when it fits in
`uint64_t`), and `getBytesWritten` immediately afterwards returns that same value. -/
theorem addBytesWritten_returns {K : Type} (c : Chunk K) (n : Nat) :
    (c.addBytesWritten n).2 = (c.getBytesWritten + n) % uint64Size ∧
      (c.addBytesWritten n).1.getBytesWritten = (c.addBytesWritten n).2 ∧
      (c.getBytesWritten + n < uint64Size →
        (c.addBytesWritten n).2 = c.getBytesWritten + n) := by
  refine ⟨rfl, rfl, fun h => ?_⟩
  simp only [Chunk.getBytesWritten] at h
  simp only [Chunk.addBytesWritten, Chunk.getBytesWritten, Nat.mod_eq_of_lt h]

/-- A chunk built with `initialDataWritten = 5000`: `addBytesWritten 1500` returns `6500`
and `getBytesWritten` then returns `6500`. -/
theorem addBytesWritten_returns_witness :
    ((exampleChunk 5000).addBytesWritten 1500).2 = 6500 ∧
      ((exampleChunk 5000).addBytesWritten 1500).1.getBytesWritten = 6500 :=
  ⟨(addBytesWritten_returns (exampleChunk 5000) 1500).2.2 (by decide),
    ((addBytesWritten_returns (exampleChunk 5000) 1500).2.1).trans
      ((addBytesWritten_returns (exampleChunk 5000) 1500).2.2 (by decide))⟩

/-- C6: for every chunk, whatever its counter, `clearBytesWritten` followed immediately by
`getBytesWritten` returns exactly `0`. -/
theorem clearBytesWritten_then_get {K : Type} (c : Chunk K) :
    c.clearBytesWritten.getBytesWritten = 0 := rfl

/-! ## Seeding -/

/-- C7, as stated, fails: with `maxChunkSizeBytes = 0` the quotient by `5` is `0`, and no
counter value lies in the empty range `[0, 0)`, whatever the draw does. -/
theorem seeded_counter_counterexample :
    ¬ ∃ c1 : Chunk Int,
        (exampleChunk 0).randomizeBytesWritten ⟨0⟩ ⟨7⟩ = some c1 ∧
          0 ≤ c1.getBytesWritten ∧
          c1.getBytesWritten < (⟨0⟩ : BalancerConfiguration).getMaxChunkSizeBytes / 5 := by
  rintro ⟨c1, -, -, h⟩
  exact Nat.not_lt_zero _ h

/-- C7, amended: for every `maxChunkSizeBytes` whose quotient by `5`, converted to the
`int32_t` bound of `nextInt32`, is positive (in particular whenever
`5 ≤ maxChunkSizeBytes < 5 * 2 ^ 31`), and every raw output of the pseudo-random source,
`randomizeBytesWritten` completes and leaves a counter with
`0 ≤ counter < maxChunkSizeBytes / 5`, and so does the construction of a chunk from a
persisted record that validates. -/
theorem seeded_counter_bound {K : Type} (cfg : BalancerConfiguration) (r : PseudoRandom)
    (h : 0 < toInt32 ((cfg.getMaxChunkSizeBytes / splitTestFactor : Nat) : Int) ∨
      (5 ≤ cfg.getMaxChunkSizeBytes ∧ cfg.getMaxChunkSizeBytes < 10737418240)) :
    (∀ c : Chunk K, ∃ c1 : Chunk K, c.randomizeBytesWritten cfg r = some c1 ∧
        0 ≤ c1.getBytesWritten ∧ c1.getBytesWritten < cfg.getMaxChunkSizeBytes / 5) ∧
      (∀ (manager : ChunkManager) (src : ChunkType K), src.validate.isOK = true →
        ∃ c1 : Chunk K, Chunk.mkFromChunkType cfg r manager src = some c1 ∧
          0 ≤ c1.getBytesWritten ∧ c1.getBytesWritten < cfg.getMaxChunkSizeBytes / 5) := by
  have hpos : 0 < toInt32 ((cfg.getMaxChunkSizeBytes / splitTestFactor : Nat) : Int) := by
    rcases h with h | ⟨h0, h1⟩
    · exact h
    · exact narrowed_bound_pos _ h0 h1
  obtain ⟨seed, hs, -, -, hlt⟩ := mkDataWritten_some cfg r hpos
  constructor
  · intro c
    refine ⟨{ c with dataWritten := toUInt64 seed }, ?_, Nat.zero_le _, hlt⟩
    simp only [Chunk.randomizeBytesWritten, hs, Option.map_some']
  · intro manager src hv
    refine ⟨Chunk.mk manager src.getMin src.getMax src.getShard src.getVersion src.getJumbo
      (toUInt64 seed), ?_, Nat.zero_le _, hlt⟩
    simp only [Chunk.mkFromChunkType, hs, Option.some_bind, hv, if_true]

/-- With `maxChunkSizeBytes = 100,000,000` the re-seeded counter is below `20,000,000`. -/
theorem seeded_counter_bound_witness :
    (5 ≤ (⟨100000000⟩ : BalancerConfiguration).getMaxChunkSizeBytes ∧
        (⟨100000000⟩ : BalancerConfiguration).getMaxChunkSizeBytes < 10737418240) ∧
      ∃ c1 : Chunk Int,
        (exampleChunk 0).randomizeBytesWritten ⟨100000000⟩ ⟨123456789123⟩ = some c1 ∧
          0 ≤ c1.getBytesWritten ∧ c1.getBytesWritten < 20000000 :=
  ⟨by decide,
    (seeded_counter_bound ⟨100000000⟩ ⟨123456789123⟩ (Or.inr (by decide))).1 (exampleChunk 0)⟩

/-! ## Construction -/

/-- C8: for every `min`, `max`, shard id, version and `initialDataWritten` (no relation
between `min` and `max` is required), the explicit-parameter constructor yields a chunk
whose manager, boundaries, owner and version are the arguments, whose jumbo flag is false
and whose `getBytesWritten` returns exactly `initialDataWritten`. -/
theorem mkExplicit_fields {K : Type} (manager : ChunkManager) (min max : K)
    (shardId : ShardId) (lastmod : ChunkVersion) (initialDataWritten : Nat) :
    (Chunk.mkExplicit manager min max shardId lastmod initialDataWritten).manager = manager ∧
      (Chunk.mkExplicit manager min max shardId lastmod initialDataWritten).min = min ∧
      (Chunk.mkExplicit manager min max shardId lastmod initialDataWritten).max = max ∧
      (Chunk.mkExplicit manager min max shardId lastmod initialDataWritten).shardId = shardId ∧
      (Chunk.mkExplicit manager min max shardId lastmod initialDataWritten).lastmod = lastmod ∧
      (Chunk.mkExplicit manager min max shardId lastmod initialDataWritten).jumbo = false ∧
      (Chunk.mkExplicit manager min max shardId lastmod
        initialDataWritten).getBytesWritten = initialDataWritten :=
  ⟨rfl, rfl, rfl, rfl, rfl, rfl, rfl⟩

/-- C9, as stated, fails: with `maxChunkSizeBytes = 0` the member initialiser
`_dataWritten(mkDataWritten())` hands the bound `0` to the draw before the body validates
the record, so construction from a record whose `validate()` is `OK` yields no chunk. -/
theorem mkFromChunkType_fails_iff_counterexample :
    (exampleRecord false Status.OK).validate.isOK = true ∧
      toInt32 (((⟨0⟩ : BalancerConfiguration).getMaxChunkSizeBytes / splitTestFactor : Nat) :
        Int) = 0 ∧
      Chunk.mkFromChunkType ⟨0⟩ ⟨7⟩ exampleManager (exampleRecord false Status.OK) = none ∧
      ¬ (Chunk.mkFromChunkType ⟨0⟩ ⟨7⟩ exampleManager (exampleRecord false Status.OK) = none ↔
        (exampleRecord false Status.OK).validate.isOK = false) := by
  decide

/-- C9, amended: when the seeding step returns a value, construction of a chunk from a
persisted record fails if and only if the record's `validate()` is not `OK`; when it
succeeds, the chunk's `min`, `max`, owner, version and jumbo flag are the record's `min`,
`max`, shard, version and jumbo values (and the counter is the seed), and it succeeds
whenever `validate()` is `OK`. -/
theorem mkFromChunkType_fails_iff {K : Type} (cfg : BalancerConfiguration) (r : PseudoRandom)
    (manager : ChunkManager) (src : ChunkType K) (seed : Int)
    (h : mkDataWritten cfg r = some seed) :
    (Chunk.mkFromChunkType cfg r manager src = none ↔ src.validate.isOK = false) ∧
      (∀ c : Chunk K, Chunk.mkFromChunkType cfg r manager src = some c →
        c.manager = manager ∧ c.min = src.getMin ∧ c.max = src.getMax ∧
          c.shardId = src.getShard ∧ c.lastmod = src.getVersion ∧ c.jumbo = src.getJumbo ∧
          c.getBytesWritten = toUInt64 seed) ∧
      (src.validate.isOK = true →
        ∃ c : Chunk K, Chunk.mkFromChunkType cfg r manager src = some c) := by
  cases hv : src.validate.isOK with
  | false =>
    have hn : Chunk.mkFromChunkType cfg r manager src = none := by
      simp [Chunk.mkFromChunkType, h, hv]
    refine ⟨⟨fun _ => rfl, fun _ => hn⟩, ?_, ?_⟩
    · intro c hc
      rw [hn] at hc
      exact absurd hc (by simp)
    · intro hf
      exact absurd hf (by simp)
  | true =>
    have hs : Chunk.mkFromChunkType cfg r manager src =
        some (Chunk.mk manager src.getMin src.getMax src.getShard src.getVersion src.getJumbo
          (toUInt64 seed)) := by
      simp [Chunk.mkFromChunkType, h, hv]
    refine ⟨⟨fun hn => ?_, fun hf => absurd hf (by simp)⟩, ?_, fun _ => ⟨_, hs⟩⟩
    · rw [hs] at hn
      exact absurd hn (by simp)
    · intro c hc
      rw [hs, Option.some.injEq] at hc
      subst hc
      exact ⟨rfl, rfl, rfl, rfl, rfl, rfl, rfl⟩

/-- A record whose validation fails yields no chunk; here the seeding step returns
`16789123`. -/
theorem mkFromChunkType_fails_iff_witness :
    mkDataWritten ⟨100000000⟩ ⟨123456789123⟩ = some 16789123 ∧
      Chunk.mkFromChunkType ⟨100000000⟩ ⟨123456789123⟩ exampleManager
        (exampleRecord false ⟨2, "max is not greater than min"⟩) = none :=
  ⟨by decide,
    ((mkFromChunkType_fails_iff ⟨100000000⟩ ⟨123456789123⟩ exampleManager
      (exampleRecord false ⟨2, "max is not greater than min"⟩) 16789123 (by decide)).1).mpr
      (by decide)⟩

/-- C10, as stated, fails: a chunk constructed from a valid persisted record whose jumbo
field is true has its jumbo flag true immediately after construction. -/
theorem jumbo_after_construction_counterexample :
    ∃ c : Chunk Int,
      Chunk.mkFromChunkType ⟨100000000⟩ ⟨123456789123⟩ exampleManager
        (exampleRecord true Status.OK) = some c ∧ c.jumbo = true ∧ c.jumbo ≠ false :=
  ⟨Chunk.mk exampleManager 10 20 "shard0" exampleVersion true 16789123, by decide, rfl,
    by decide⟩

/-- C10, amended: a chunk built by the explicit-parameter constructor has its jumbo flag
false, whatever the arguments; a chunk built from a persisted record has its jumbo flag
equal to the record's jumbo value, so it is false exactly when the record's is. -/
theorem jumbo_after_construction (K : Type) :
    (∀ (manager : ChunkManager) (min max : K) (shardId : ShardId) (lastmod : ChunkVersion)
        (initialDataWritten : Nat),
        (Chunk.mkExplicit manager min max shardId lastmod initialDataWritten).jumbo = false) ∧
      (∀ (cfg : BalancerConfiguration) (r : PseudoRandom) (manager : ChunkManager)
        (src : ChunkType K) (c : Chunk K),
        Chunk.mkFromChunkType cfg r manager src = some c → c.jumbo = src.getJumbo) := by
  refine ⟨fun _ _ _ _ _ _ => rfl, ?_⟩
  intro cfg r manager src c hc
  simp only [Chunk.mkFromChunkType] at hc
  cases hm : mkDataWritten cfg r with
  | none => simp [hm] at hc
  | some seed =>
    simp only [hm, Option.some_bind] at hc
    split at hc
    · rw [Option.some.injEq] at hc
      subst hc
      rfl
    · exact absurd hc (by simp)

/-- A valid record whose jumbo field is false gives a chunk whose jumbo flag is false. -/
theorem jumbo_after_construction_witness :
    ∃ c : Chunk Int,
      Chunk.mkFromChunkType ⟨100000000⟩ ⟨123456789123⟩ exampleManager
        (exampleRecord false Status.OK) = some c ∧ c.jumbo = false :=
  ⟨Chunk.mk exampleManager 10 20 "shard0" exampleVersion false 16789123, by decide,
    (jumbo_after_construction Int).2 ⟨100000000⟩ ⟨123456789123⟩ exampleManager
      (exampleRecord false Status.OK) _ (by decide)⟩

/-! ## Frame conditions -/

/-- C11: boundaries, owner and version are immutable after construction. Every call that
completes (containsKey, getBytesWritten, addBytesWritten, clearBytesWritten,
randomizeBytesWritten, toString, markAsJumbo) leaves `min`, `max`, the shard id and the
version unchanged; the counter operations leave the jumbo flag unchanged; `markAsJumbo`
leaves the byte counter unchanged; `containsKey` and `getBytesWritten` complete and change
no field at all. Hence `containsKey k` gives the same answer before and after any sequence
of calls, and a sequence whose calls all complete does complete. -/
theorem frame_of_operations {K : Type} [LinearOrder K] [WoCompare K] (d : Decls K)
    (c : Chunk K) :
    (∀ (op : Call K) (o : Outcome K), c.call d op = some o →
        o.chunk.min = c.min ∧ o.chunk.max = c.max ∧ o.chunk.shardId = c.shardId ∧
          o.chunk.lastmod = c.lastmod) ∧
      (∀ n : Nat, (c.addBytesWritten n).1.jumbo = c.jumbo) ∧
      c.clearBytesWritten.jumbo = c.jumbo ∧
      (∀ (cfg : BalancerConfiguration) (r : PseudoRandom) (c1 : Chunk K),
        c.randomizeBytesWritten cfg r = some c1 → c1.jumbo = c.jumbo) ∧
      (∀ catalog : ShardingCatalogClient,
        (c.markAsJumbo d catalog).1.dataWritten = c.dataWritten) ∧
      (∀ k : K, c.call d (Call.containsKey k) = some ⟨c, Ret.bool (c.containsKey k), []⟩) ∧
      c.call d Call.getBytesWritten = some ⟨c, Ret.uint64 c.getBytesWritten, []⟩ ∧
      (∀ (ops : List (Call K)) (c1 : Chunk K) (k : K), c.run d ops = some c1 →
        c1.containsKey k = c.containsKey k) ∧
      (∀ ops : List (Call K), (∀ op ∈ ops, op.completes = true) →
        ∃ c1 : Chunk K, c.run d ops = some c1 ∧
          ∀ k : K, c1.containsKey k = c.containsKey k) := by
  refine ⟨?_, fun _ => rfl, rfl, ?_, ?_, fun _ => rfl, rfl, ?_, ?_⟩
  · intro op o hc
    exact (Chunk.call_frame d c op o hc).2
  · intro cfg r c1 h
    simp only [Chunk.randomizeBytesWritten] at h
    cases hm : mkDataWritten cfg r with
    | none => simp [hm] at h
    | some seed =>
      simp only [hm, Option.map_some', Option.some.injEq] at h
      subst h
      rfl
  · intro catalog
    simp only [Chunk.markAsJumbo_fst]
  · intro ops c1 k h
    obtain ⟨-, h2, h3, -, -⟩ := Chunk.run_frame d c ops c1 h
    exact Chunk.containsKey_congr c c1 k h2 h3
  · intro ops hall
    obtain ⟨c1, h1⟩ := Chunk.run_of_completes d c ops hall
    obtain ⟨-, h2, h3, -, -⟩ := Chunk.run_frame d c ops c1 h1
    exact ⟨c1, h1, fun k => Chunk.containsKey_congr c c1 k h2 h3⟩

/-- One call of each member function on the chunk `[10, 20)` completes and leaves every
membership answer as it was. -/
theorem frame_of_operations_witness :
    ∃ c1 : Chunk Int, (exampleChunk 7).run exampleDecls exampleCalls = some c1 ∧
      ∀ k : Int, c1.containsKey k = (exampleChunk 7).containsKey k :=
  (frame_of_operations exampleDecls (exampleChunk 7)).2.2.2.2.2.2.2.2 exampleCalls
    (by decide)

/-- C12: `markAsJumbo` is idempotent on the in-memory flag and does not deduplicate the
remote call. For every chunk and every pair of catalog answers, calling `markAsJumbo` twice
in a row leaves the same chunk as one call, with the jumbo flag true, and each of the two
calls issues exactly one catalog update (the same request), so two in total. -/
theorem markAsJumbo_twice {K : Type} [LinearOrder K] [WoCompare K] (d : Decls K)
    (catalog1 catalog2 : ShardingCatalogClient) (c : Chunk K) :
    ((c.markAsJumbo d catalog1).1.markAsJumbo d catalog2).1 = (c.markAsJumbo d catalog1).1 ∧
      ((c.markAsJumbo d catalog1).1.markAsJumbo d catalog2).1.jumbo = true ∧
      updatesOf (c.markAsJumbo d catalog1).2 =
        [Chunk.jumboRequest d (d.genID c.manager.getns c.min)] ∧
      updatesOf ((c.markAsJumbo d catalog1).1.markAsJumbo d catalog2).2 =
        [Chunk.jumboRequest d (d.genID c.manager.getns c.min)] ∧
      c.runTrace d [Call.markAsJumbo catalog1, Call.markAsJumbo catalog2] =
        some ((c.markAsJumbo d catalog1).2 ++
          ((c.markAsJumbo d catalog1).1.markAsJumbo d catalog2).2) ∧
      (updatesOf ((c.markAsJumbo d catalog1).2 ++
          ((c.markAsJumbo d catalog1).1.markAsJumbo d catalog2).2)).length = 2 := by
  have h2 : updatesOf ((c.markAsJumbo d catalog1).1.markAsJumbo d catalog2).2 =
      [Chunk.jumboRequest d (d.genID c.manager.getns c.min)] := by
    rw [Chunk.updatesOf_markAsJumbo, Chunk.markAsJumbo_fst]
  refine ⟨?_, ?_, Chunk.updatesOf_markAsJumbo d catalog1 c, h2, ?_, ?_⟩
  · simp only [Chunk.markAsJumbo_fst]
  · simp only [Chunk.markAsJumbo_fst]
  · simp [Chunk.runTrace, Chunk.call]
  · have h1 := Chunk.updatesOf_markAsJumbo d catalog1 c
    simp only [updatesOf] at h1 h2 ⊢
    rw [List.filterMap_append, h1, h2]
    rfl

/-! ## Totality -/

/-- C13, as stated, fails: with `maxChunkSizeBytes = 4` the quotient by `5` is `0`, and with
`maxChunkSizeBytes = 21474836480` the quotient `2 ^ 32` is narrowed to `0`; in both cases
the bound handed to the draw is zero and `randomizeBytesWritten` does not complete. -/
theorem operations_total_counterexample :
    toInt32 (((⟨4⟩ : BalancerConfiguration).getMaxChunkSizeBytes / splitTestFactor : Nat) :
        Int) = 0 ∧
      (exampleChunk 0).randomizeBytesWritten ⟨4⟩ ⟨7⟩ = none ∧
      toInt32 (((⟨21474836480⟩ : BalancerConfiguration).getMaxChunkSizeBytes /
        splitTestFactor : Nat) : Int) = 0 ∧
      (exampleChunk 0).randomizeBytesWritten ⟨21474836480⟩ ⟨7⟩ = none := by
  decide

/-- C13, amended: for every chunk, every key and every increment, `containsKey`,
`getBytesWritten`, `addBytesWritten` and `clearBytesWritten` complete; and
`randomizeBytesWritten` completes, with a non-zero bound handed to the draw, for every
`maxChunkSizeBytes` whose quotient by `5`, converted to `int32_t`, is positive, in
particular whenever `5 ≤ maxChunkSizeBytes < 5 * 2 ^ 31`. -/
theorem operations_total {K : Type} [LinearOrder K] [WoCompare K] (d : Decls K)
    (c : Chunk K) :
    (∀ k : K, ∃ o : Outcome K, c.call d (Call.containsKey k) = some o) ∧
      (∃ o : Outcome K, c.call d Call.getBytesWritten = some o) ∧
      (∀ n : Nat, ∃ o : Outcome K, c.call d (Call.addBytesWritten n) = some o) ∧
      (∃ o : Outcome K, c.call d Call.clearBytesWritten = some o) ∧
      (∀ (cfg : BalancerConfiguration) (r : PseudoRandom),
        (0 < toInt32 ((cfg.getMaxChunkSizeBytes / splitTestFactor : Nat) : Int) ∨
          (5 ≤ cfg.getMaxChunkSizeBytes ∧ cfg.getMaxChunkSizeBytes < 10737418240)) →
        toInt32 ((cfg.getMaxChunkSizeBytes / splitTestFactor : Nat) : Int) ≠ 0 ∧
          ∃ o : Outcome K, c.call d (Call.randomizeBytesWritten cfg r) = some o) := by
  refine ⟨fun _ => ⟨_, rfl⟩, ⟨_, rfl⟩, fun _ => ⟨_, rfl⟩, ⟨_, rfl⟩, ?_⟩
  intro cfg r h
  have hpos : 0 < toInt32 ((cfg.getMaxChunkSizeBytes / splitTestFactor : Nat) : Int) := by
    rcases h with h | ⟨h0, h1⟩
    · exact h
    · exact narrowed_bound_pos _ h0 h1
  obtain ⟨seed, hs, -⟩ := mkDataWritten_some cfg r hpos
  refine ⟨ne_of_gt hpos, ?_⟩
  apply Chunk.call_of_completes
  simp only [Call.completes, hs, Option.isSome_some]

/-- With `maxChunkSizeBytes = 100,000,000` the re-seeding completes. -/
theorem operations_total_witness :
    ∃ o : Outcome Int,
      (exampleChunk 0).call exampleDecls
        (Call.randomizeBytesWritten ⟨100000000⟩ ⟨123456789123⟩) = some o :=
  ((operations_total exampleDecls (exampleChunk 0)).2.2.2.2 ⟨100000000⟩ ⟨123456789123⟩
    (Or.inr (by decide))).2

/-! ## The catalog update and the log -/

/-- C14: in the trace of `markAsJumbo`, for every chunk and every catalog answer, the write
`_jumbo = true` occurs strictly before the one catalog update; the update is issued with
the jumbo flag already true, and every later action (the warning on failure) sees it true
as well. -/
theorem setJumbo_before_update {K : Type} (d : Decls K) (catalog : ShardingCatalogClient)
    (c : Chunk K) :
    ∃ pre post : List Event,
      (c.markAsJumbo d catalog).2 =
        pre ++ (⟨Effect.updateConfigDocument
          (Chunk.jumboRequest d (d.genID c.manager.getns c.min)), true⟩ : Event) :: post ∧
      (⟨Effect.setJumbo true, true⟩ : Event) ∈ pre ∧
      (∀ e ∈ pre, e.effect.isUpdate = false) ∧
      (∀ e ∈ post, e.effect.isUpdate = false ∧ e.jumboSeen = true) := by
  rw [Chunk.markAsJumbo_snd]
  refine ⟨[⟨Effect.log ("Marking chunk " ++ c.toString d ++ " as jumbo."), c.jumbo⟩,
    ⟨Effect.setJumbo true, true⟩], _, rfl, by simp, ?_, ?_⟩
  · intro e he
    simp only [List.mem_cons, List.mem_singleton, List.not_mem_nil, or_false] at he
    rcases he with rfl | rfl <;> rfl
  · intro e he
    split at he
    · exact absurd he (List.not_mem_nil e)
    · have he1 := List.mem_singleton.mp he
      subst he1
      exact ⟨rfl, rfl⟩

/-- C15: each `markAsJumbo` call issues exactly one catalog update: on `ConfigNS`, selecting
the document named `genID(ns, min)`, with a patch that sets only the jumbo field to true,
without upsert, with the majority write concern. The request is determined by the namespace
and `min`: chunks that agree on these issue the same request, whatever their `max`, shard
id, version, byte counter and previous jumbo flag, and whatever the catalog answers. -/
theorem markAsJumbo_request {K : Type} (d : Decls K) (catalog : ShardingCatalogClient)
    (c : Chunk K) :
    updatesOf (c.markAsJumbo d catalog).2 =
        [Chunk.jumboRequest d (d.genID c.manager.getns c.min)] ∧
      (Chunk.jumboRequest d (d.genID c.manager.getns c.min)).ns = d.ConfigNS ∧
      (Chunk.jumboRequest d (d.genID c.manager.getns c.min)).query =
        [(d.name, d.genID c.manager.getns c.min)] ∧
      (Chunk.jumboRequest d (d.genID c.manager.getns c.min)).update =
        [("$set", [(d.jumbo, true)])] ∧
      (Chunk.jumboRequest d (d.genID c.manager.getns c.min)).upsert = false ∧
      (Chunk.jumboRequest d (d.genID c.manager.getns c.min)).writeConcern =
        ShardingCatalogClient.kMajorityWriteConcern ∧
      (∀ (catalog1 : ShardingCatalogClient) (c1 : Chunk K),
        c1.manager.getns = c.manager.getns → c1.min = c.min →
        updatesOf (c1.markAsJumbo d catalog1).2 = updatesOf (c.markAsJumbo d catalog).2) := by
  refine ⟨Chunk.updatesOf_markAsJumbo d catalog c, rfl, rfl, rfl, rfl, rfl, ?_⟩
  intro catalog1 c1 hns hmin
  rw [Chunk.updatesOf_markAsJumbo, Chunk.updatesOf_markAsJumbo, hns, hmin]

/-- A chunk with another `max`, owner, version and counter, already jumbo, issues the same
request as the chunk `[10, 20)`. -/
theorem markAsJumbo_request_witness :
    updatesOf
        ((Chunk.mk exampleManager 10 99 "shard7" ⟨5, "f"⟩ true 42).markAsJumbo exampleDecls
          failingCatalog).2 =
      updatesOf ((exampleChunk 0).markAsJumbo exampleDecls okCatalog).2 :=
  (markAsJumbo_request exampleDecls okCatalog (exampleChunk 0)).2.2.2.2.2.2 failingCatalog
    (Chunk.mk exampleManager 10 99 "shard7" ⟨5, "f"⟩ true 42) rfl rfl

/-- C16: for every chunk and every catalog answer, one `markAsJumbo` call logs exactly one
informational message, emitted before the catalog update is issued, and logs a warning if
and only if the update returned a non-`OK` status: none on success, exactly one on failure,
made of the chunk name and the cause of the failure status. -/
theorem markAsJumbo_logging {K : Type} (d : Decls K) (catalog : ShardingCatalogClient)
    (c : Chunk K) :
    logsOf (c.markAsJumbo d catalog).2 =
        ["Marking chunk " ++ c.toString d ++ " as jumbo."] ∧
      (∃ pre post : List Event,
        (c.markAsJumbo d catalog).2 =
          pre ++ (⟨Effect.updateConfigDocument
            (Chunk.jumboRequest d (d.genID c.manager.getns c.min)), true⟩ : Event) :: post ∧
        logsOf pre = ["Marking chunk " ++ c.toString d ++ " as jumbo."] ∧
        updatesOf pre = [] ∧ logsOf post = []) ∧
      ((catalog.updateConfigDocument
          (Chunk.jumboRequest d (d.genID c.manager.getns c.min))).isOK = true →
        warningsOf (c.markAsJumbo d catalog).2 = []) ∧
      ((catalog.updateConfigDocument
          (Chunk.jumboRequest d (d.genID c.manager.getns c.min))).isOK = false →
        warningsOf (c.markAsJumbo d catalog).2 =
          ["couldn't set jumbo for chunk: " ++ d.genID c.manager.getns c.min
            ++ d.causedBy (catalog.updateConfigDocument
              (Chunk.jumboRequest d (d.genID c.manager.getns c.min))).getStatus]) ∧
      ((warningsOf (c.markAsJumbo d catalog).2).length = 1 ↔
        (catalog.updateConfigDocument
          (Chunk.jumboRequest d (d.genID c.manager.getns c.min))).isOK = false) := by
  refine ⟨Chunk.logsOf_markAsJumbo d catalog c, ?_, ?_, ?_, ?_⟩
  · rw [Chunk.markAsJumbo_snd]
    refine ⟨[⟨Effect.log ("Marking chunk " ++ c.toString d ++ " as jumbo."), c.jumbo⟩,
      ⟨Effect.setJumbo true, true⟩], _, rfl, by simp [logsOf], by simp [updatesOf], ?_⟩
    split <;> simp [logsOf]
  · intro h
    rw [Chunk.warningsOf_markAsJumbo, if_pos h]
  · intro h
    rw [Chunk.warningsOf_markAsJumbo, if_neg (by simp [h])]
  · rw [Chunk.warningsOf_markAsJumbo]
    cases h : (catalog.updateConfigDocument
      (Chunk.jumboRequest d (d.genID c.manager.getns c.min))).isOK <;> simp

/-- A failed update on the chunk `[10, 20)` logs one warning with the cause; a successful
one logs none. -/
theorem markAsJumbo_logging_witness :
    warningsOf ((exampleChunk 0).markAsJumbo exampleDecls failingCatalog).2 =
        ["couldn't set jumbo for chunk: "
          ++ exampleDecls.genID (exampleChunk 0).manager.getns (exampleChunk 0).min
          ++ exampleDecls.causedBy (failingCatalog.updateConfigDocument
            (Chunk.jumboRequest exampleDecls
              (exampleDecls.genID (exampleChunk 0).manager.getns
                (exampleChunk 0).min))).getStatus] ∧
      warningsOf ((exampleChunk 0).markAsJumbo exampleDecls okCatalog).2 = [] :=
  ⟨(markAsJumbo_logging exampleDecls failingCatalog (exampleChunk 0)).2.2.2.1 rfl,
    (markAsJumbo_logging exampleDecls okCatalog (exampleChunk 0)).2.2.1 rfl⟩

/-! ## Adjacent and empty ranges -/

/-- C17: adjacent ranges partition their union. For chunks `lo = [a, b)`, `hi = [b, c)` and
`whole = [a, c)` and every key `k`: when `a ≤ b ≤ c`, `whole` contains `k` if and only if
exactly one of `lo` and `hi` does; no key is contained in both `lo` and `hi`; the shared
boundary `b` is not in `lo`, and it is in `hi` when `b < c`. -/
theorem adjacent_partition {K : Type} [LinearOrder K] [WoCompare K] (lo hi whole : Chunk K)
    (k : K) (hshare : lo.max = hi.min) (hmin : whole.min = lo.min)
    (hmax : whole.max = hi.max) :
    (lo.min ≤ lo.max → hi.min ≤ hi.max →
        (whole.containsKey k = true ↔
          (lo.containsKey k = true ∧ hi.containsKey k = false) ∨
            (lo.containsKey k = false ∧ hi.containsKey k = true))) ∧
      ¬ (lo.containsKey k = true ∧ hi.containsKey k = true) ∧
      lo.containsKey lo.max = false ∧
      (hi.min < hi.max → hi.containsKey hi.min = true) := by
  refine ⟨?_, ?_, ?_, ?_⟩
  · intro hlo hhi
    rw [hshare] at hlo
    simp only [Bool.eq_false_iff, ne_eq, Chunk.containsKey_eq_true_iff, hmin, hmax, hshare]
    rcases lt_or_le k hi.min with h | h
    · have h1 : ¬ hi.min ≤ k := not_le.mpr h
      have h2 : k < hi.max := lt_of_lt_of_le h hhi
      simp [h, h1, h2]
    · have h1 : ¬ k < hi.min := not_lt.mpr h
      have h2 : lo.min ≤ k := le_trans hlo h
      simp [h, h1, h2]
  · simp only [Chunk.containsKey_eq_true_iff, hshare]
    rintro ⟨⟨-, h1⟩, ⟨h2, -⟩⟩
    exact absurd h1 (not_lt.mpr h2)
  · rw [Bool.eq_false_iff, ne_eq, Chunk.containsKey_eq_true_iff]
    rintro ⟨-, h⟩
    exact lt_irrefl _ h
  · intro h
    rw [Chunk.containsKey_eq_true_iff]
    exact ⟨le_refl _, h⟩

/-- The chunks `[10, 15)` and `[15, 20)` against `[10, 20)` at the shared boundary `15`:
only the upper chunk contains it. -/
theorem adjacent_partition_witness :
    (Chunk.mkExplicit exampleManager (10 : Int) 20 "shard0" exampleVersion 0).containsKey 15
        = true ∧
      (Chunk.mkExplicit exampleManager (10 : Int) 15 "shard0" exampleVersion 0).containsKey 15
        = false ∧
      (Chunk.mkExplicit exampleManager (15 : Int) 20 "shard1" exampleVersion 0).containsKey 15
        = true :=
  ⟨((adjacent_partition
      (Chunk.mkExplicit exampleManager (10 : Int) 15 "shard0" exampleVersion 0)
      (Chunk.mkExplicit exampleManager (15 : Int) 20 "shard1" exampleVersion 0)
      (Chunk.mkExplicit exampleManager (10 : Int) 20 "shard0" exampleVersion 0)
      15 rfl rfl rfl).1 (by decide) (by decide)).mpr (Or.inr ⟨by decide, by decide⟩),
    (adjacent_partition
      (Chunk.mkExplicit exampleManager (10 : Int) 15 "shard0" exampleVersion 0)
      (Chunk.mkExplicit exampleManager (15 : Int) 20 "shard1" exampleVersion 0)
      (Chunk.mkExplicit exampleManager (10 : Int) 20 "shard0" exampleVersion 0)
      15 rfl rfl rfl).2.2.1,
    (adjacent_partition
      (Chunk.mkExplicit exampleManager (10 : Int) 15 "shard0" exampleVersion 0)
      (Chunk.mkExplicit exampleManager (15 : Int) 20 "shard1" exampleVersion 0)
      (Chunk.mkExplicit exampleManager (10 : Int) 20 "shard0" exampleVersion 0)
      15 rfl rfl rfl).2.2.2 (by decide)⟩

/-- C18: an empty or inverted range contains nothing. For every chunk built by the
explicit-parameter constructor with `max ≤ min`, `containsKey k` is false for every key
`k`; equivalently, if `containsKey k` is true for some `k` then `min < max`. -/
theorem inverted_range_empty {K : Type} [LinearOrder K] [WoCompare K]
    (manager : ChunkManager) (min max : K) (shardId : ShardId) (lastmod : ChunkVersion)
    (initialDataWritten : Nat) :
    (max ≤ min → ∀ k : K,
        (Chunk.mkExplicit manager min max shardId lastmod initialDataWritten).containsKey k
          = false) ∧
      (∀ k : K,
        (Chunk.mkExplicit manager min max shardId lastmod initialDataWritten).containsKey k
          = true → min < max) := by
  have key : ∀ k : K,
      (Chunk.mkExplicit manager min max shardId lastmod initialDataWritten).containsKey k
        = true → min < max := by
    intro k h
    rw [Chunk.containsKey_eq_true_iff] at h
    exact lt_of_le_of_lt h.1 h.2
  refine ⟨fun hle k => ?_, key⟩
  rw [Bool.eq_false_iff]
  intro h
  exact absurd (key k h) (not_lt.mpr hle)

/-- The inverted range with `min = 20` and `max = 10` does not contain `15`. -/
theorem inverted_range_empty_witness :
    (20 : Int) ≥ 10 ∧
      (Chunk.mkExplicit exampleManager (20 : Int) 10 "shard0" exampleVersion 0).containsKey 15
        = false :=
  ⟨by decide,
    (inverted_range_empty exampleManager (20 : Int) 10 "shard0" exampleVersion 0).1
      (by decide) 15⟩

end mongo
